import Mathlib

/-!
Verification of the incremental multi-panel plot composition engine
implemented in `src/ivplot.py` (functions `_downsample`, `_log_ids`,
`adaptive_alpha`, `_ensure_fig`, `_update_coloraxis_range`, `ivplot` and its
inner `_add_3d`).

Shallow embedding conventions:
* pandas data frames become `List Sample` (a row per sample, rational fields);
  order of rows is the concatenation / input order, as in the source;
* Python floats become `ℚ`; the non-finite sentinels `np.inf` / `-np.inf`
  stored in the colour-axis ranges become `Option ℚ` (`none` standing for the
  infinite initial bound, as installed by `_ensure_fig`); `NaN` entries in a
  colour column are modelled as `none` inside `List (Option ℚ)` where the
  source uses `np.nanmin` / `np.nanmax`;
* `log10` applied by the source to positive data is kept symbolic: traces
  store the argument list of `log10` together with an `isLogData` flag, and a
  separate real-valued view applies `Real.logb 10`;
* the mutable plotly figure with its bolted-on attributes
  (`_ivgs_vds_range`, `_ivds_vgs_range`, `_label_colors`) becomes `FigState`;
  a call returns the state as mutated up to the point of a raised exception
  (`FigState × Option Err`), matching Python in-place mutation semantics;
* plotly's `add_trace(row=…, col=…)` validation against the subplot grid made
  by `make_subplots` is modelled by `validPos` (adding outside the grid raises
  `ValueError` in plotly);
* the seeded generator `np.random.default_rng(seed).choice(N, k,
  replace=False)` is external library code; it is modelled by a deterministic
  seeded partial selection (`rngChoice`, an LCG-driven draw without
  replacement) which preserves the contract the source relies on: a fixed
  function of the seed returning `k` distinct indices below `N`;
* HTML export, browser opening, hover templates, subplot titles and camera
  linking are presentation-layer effects outside the modelled state.
-/

namespace IVPlot

/-- One row of a sweep's data frame: columns `vgs`, `vds`, `ids`. -/
structure Sample where
  vgs : ℚ
  vds : ℚ
  ids : ℚ
deriving DecidableEq, Repr, Inhabited

/-- One element of the `sweeps` list: a dict with `data` and an optional
`type` entry (`sweep.get('type', 'both')`). -/
structure SweepRec where
  data : List Sample
  type : Option String
deriving DecidableEq, Repr

/-- `sweep.get('type', 'both')`. -/
def typeGet (s : SweepRec) : String := s.type.getD "both"

/-- Exceptions the modelled code can raise. -/
inductive Err
  /-- `ValueError` from `np.nanmin` / `np.nanmax` on a zero-size array. -/
  | emptyReduce
  /-- `ValueError` from `pd.concat([])`. -/
  | emptyConcat
  /-- `ValueError` from `rng.choice(N, size=k, replace=False)` with `k > N`. -/
  | choiceErr
  /-- `ValueError` from `fig.add_trace(row=…, col=…)` outside the grid. -/
  | gridErr
deriving DecidableEq, Repr

/-- The two subplot grids `_ensure_fig` can create: 2×3 (`view != '3d'`)
or 2×1 (`view == '3d'`). -/
inductive Layout
  | sixPanel
  | threeDOnly
deriving DecidableEq, Repr

/-- Whether `(row, col)` addresses a subplot of the grid. -/
def validPos (l : Layout) (row col : ℕ) : Bool :=
  match l with
  | .sixPanel => decide (1 ≤ row ∧ row ≤ 2 ∧ 1 ≤ col ∧ col ≤ 3)
  | .threeDOnly => decide (1 ≤ row ∧ row ≤ 2 ∧ col = 1)

inductive TraceKind
  | scatter2d
  | scatter3d
  | mesh3d
deriving DecidableEq, Repr, Inhabited

/-- How a trace is coloured: bound to a shared colour axis with per-point
values (2D panels), a direct named colour (3D point clouds), or the
`color=color or None` argument of `go.Mesh3d`. -/
inductive TraceColor
  | axisBound (axis : ℕ) (values : List ℚ)
  | direct (c : String)
  | meshC (c : Option String)
deriving DecidableEq, Repr

instance : Inhabited TraceColor := ⟨.direct "gray"⟩

/-- A trace descriptor as handed to `fig.add_trace`.  Current values that the
source log-transforms are stored as the `log10` argument list with
`isLogData = true` (`y` for the 2D log rows, `z` for the 3D log scene).
Meshes carry no marker symbol / size; those fields are `""` / `0` there. -/
structure Trace where
  row : ℕ
  col : ℕ
  kind : TraceKind
  x : List ℚ
  y : List ℚ
  z : List ℚ
  isLogData : Bool
  color : TraceColor
  opacity : ℚ
  name : String
  legendgroup : String
  showlegend : Bool
  symbol : String
  size : ℚ
deriving DecidableEq, Repr, Inhabited

/-- The figure together with the attributes `ivplot` bolts onto it:
`_ivgs_vds_range` (`rangeVds`, colour bounds of the left column),
`_ivds_vgs_range` (`rangeVgs`, right column) — `none` components are the
`np.inf` / `-np.inf` sentinels — and `_label_colors` (`labelColors`,
insertion-ordered label→colour table). -/
structure FigState where
  layout : Layout
  rangeVds : Option ℚ × Option ℚ
  rangeVgs : Option ℚ × Option ℚ
  labelColors : List (String × String)
  traces : List Trace
deriving DecidableEq, Repr

/-- The keyword arguments of `ivplot` that the model tracks.  `none` for
`alpha`, `color`, `label` is Python `None`; `none` for `maxSamples` is a
non-finite cap (the default `np.inf`). -/
structure Args where
  view : String
  surf : Bool
  alpha : Option ℚ
  marker : String
  markersize : ℚ
  color : Option String
  label : Option String
  maxSamples : Option ℚ
  rngSeed : ℕ
deriving DecidableEq, Repr

/-- The defaults of the `ivplot` signature. -/
def defaultArgs : Args :=
  { view := "all", surf := false, alpha := none, marker := "circle",
    markersize := 6, color := none, label := none, maxSamples := none,
    rngSeed := 0 }

/-! ### Python truthiness helpers (`x or y`) -/

/-- Truthiness of an optional string: `None` and `""` are falsy. -/
def pyTruthyS (o : Option String) : Bool :=
  match o with
  | none => false
  | some s => !(s == "")

/-- `s or d` for an optional string. -/
def pyOrS (o : Option String) (d : String) : String :=
  match o with
  | none => d
  | some s => if s == "" then d else s

/-- `x or d` for an optional rational (`0` is falsy, like Python `0.0`). -/
def pyOrQ (o : Option ℚ) (d : ℚ) : ℚ :=
  match o with
  | none => d
  | some a => if a = 0 then d else a

/-- `color or None` as passed to `go.Mesh3d`. -/
def pyOrOpt (o : Option String) : Option String :=
  if pyTruthyS o then o else none

/-! ### `_to_plotly_symbol` -/

/-- The mpl→plotly marker table of `_to_plotly_symbol`. -/
def symbolTable : List (String × String) :=
  [("o", "circle"), (".", "circle"), (",", "circle"),
   ("x", "x"), ("+", "cross"),
   ("s", "square"), ("D", "diamond"), ("d", "diamond"),
   ("^", "triangle-up"), ("v", "triangle-down"),
   ("<", "triangle-left"), (">", "triangle-right"),
   ("p", "pentagon"), ("*", "star")]

/-- `_to_plotly_symbol(m)`: `m = m or "circle"; return table.get(m, m)`. -/
def toPlotlySymbol (m : String) : String :=
  let m := if m == "" then "circle" else m
  (symbolTable.lookup m).getD m

/-! ### `_downsample` -/

/-- One step of a linear congruential generator, standing in for the external
PCG64 stream of `np.random.default_rng`. -/
def lcgNext (s : ℕ) : ℕ :=
  (6364136223846793005 * s + 1442695040888963407) % 2 ^ 64

/-- Draw `k` elements of `pool` without replacement, threading the generator
state. -/
def drawK : ℕ → List ℕ → ℕ → List ℕ
  | _, _, 0 => []
  | _, [], _ + 1 => []
  | s, a :: pool, k + 1 =>
    let s1 := lcgNext s
    let i := s1 % (a :: pool).length
    (a :: pool).getD i 0 :: drawK s1 ((a :: pool).eraseIdx i) k

/-- Model of `np.random.default_rng(seed).choice(N, size=k, replace=False)`:
`k` distinct indices below `N`, a fixed function of the seed. -/
def rngChoice (seed N k : ℕ) : List ℕ :=
  drawK seed (List.range N) k

/-- `_downsample(samples, max_samples, rng_seed)`.  A `none` cap is a
non-finite `max_samples` (`not np.isfinite(...)`). -/
def downsample (rows : List Sample) (maxSamples : Option ℚ) (seed : ℕ) :
    Except Err (List Sample) :=
  let N := rows.length
  match maxSamples with
  | none => .ok rows
  | some cap =>
    if (N : ℚ) ≤ cap then .ok rows
    else
      let k := (max 1 ⌊cap⌋).toNat
      if k ≤ N then
        .ok ((rngChoice seed N k).map fun i => rows.getD i default)
      else .error .choiceErr

/-! ### `_log_ids` and `adaptive_alpha` -/

/-- Boolean-mask indexing `xs[mask]` of numpy/pandas. -/
def boolIndex {α : Type} (xs : List α) (mask : List Bool) : List α :=
  ((xs.zip mask).filter fun p => p.2).map fun p => p.1

/-- The default epsilon `1e-12` of `_log_ids`. -/
def eps12 : ℚ := 1 / 10 ^ 12

/-- `_log_ids(ids, eps)`: the mask `ids > 0` and the argument list
`ids[mask] + eps` of the subsequent `np.log10`. -/
def logIds (ids : List ℚ) (eps : ℚ) : List Bool × List ℚ :=
  let mask := ids.map fun x => decide (0 < x)
  (mask, (boolIndex ids mask).map fun x => x + eps)

/-- The real-valued log view: `np.log10(ids[mask] + eps)`. -/
noncomputable def logVals (ids : List ℚ) (eps : ℚ) : List ℝ :=
  ((logIds ids eps).2).map fun q => Real.logb 10 (q : ℝ)

/-- `adaptive_alpha(n)`. -/
def adaptiveAlpha (n0 : ℕ) : ℚ :=
  let n := max 1 n0
  if n ≤ 100 then 0.8
  else if 1000 ≤ n then 0.1
  else 0.8 - ((n : ℚ) - 100) * (0.7 / 900)

/-! ### `_ensure_fig` and `_update_coloraxis_range` -/

/-- The state `_ensure_fig` builds when no figure is supplied: the layout
selected by `view`, both colour-axis ranges at `[np.inf, -np.inf]`, no
traces; `_label_colors` is attached lazily by `ivplot` and starts empty. -/
def freshFig (view : String) : FigState :=
  { layout := if view == "3d" then .threeDOnly else .sixPanel,
    rangeVds := (none, none), rangeVgs := (none, none),
    labelColors := [], traces := [] }

/-- `_ensure_fig(fig, …)`: reuse a supplied figure as-is, else create one. -/
def ensureFig (fig : Option FigState) (view : String) : FigState :=
  fig.getD (freshFig view)

/-- `np.nanmin` / `np.nanmax` over a column whose `none` entries are `NaN`:
`none` when every entry is `NaN` (the all-NaN result is itself `NaN`); the
caller must not pass `[]` (zero-size reduction raises). -/
def nanMinMax (values : List (Option ℚ)) : Option (ℚ × ℚ) :=
  match values.filterMap id with
  | [] => none
  | v :: vs => some (vs.foldl min v, vs.foldl max v)

/-- `min(lo, vmin)` where `lo` may still be the `np.inf` sentinel. -/
def pyMinOpt (lo : Option ℚ) (v : ℚ) : Option ℚ :=
  some (match lo with | none => v | some l => min l v)

/-- `max(hi, vmax)` where `hi` may still be the `-np.inf` sentinel. -/
def pyMaxOpt (hi : Option ℚ) (v : ℚ) : Option ℚ :=
  some (match hi with | none => v | some h => max h v)

/-- `_update_coloraxis_range(fig, which, values)`.  Raises on an empty
column; on an all-NaN column `nanmin` returns `NaN` and the Python
`min`/`max` keep the stored bounds, so the state is unchanged. -/
def updateColoraxisRange (st : FigState) (which : ℕ)
    (values : List (Option ℚ)) : Except Err FigState :=
  if values.isEmpty then .error .emptyReduce
  else
    match nanMinMax values with
    | none => .ok st
    | some (vmin, vmax) =>
      if which = 1 then
        .ok { st with
              rangeVds := (pyMinOpt st.rangeVds.1 vmin,
                           pyMaxOpt st.rangeVds.2 vmax) }
      else
        .ok { st with
              rangeVgs := (pyMinOpt st.rangeVgs.1 vmin,
                           pyMaxOpt st.rangeVgs.2 vmax) }

/-! ### The per-label colour table of the 3D branch -/

/-- The fixed `_palette` list of `ivplot`. -/
def palette : List String :=
  ["crimson", "royalblue", "darkorange", "seagreen", "purple",
   "deeppink", "dodgerblue", "chocolate", "limegreen"]

/-- Lines 341–346 of `ivplot`: look `label` up in `fig._label_colors`,
assigning `_palette[len(fig._label_colors) % len(_palette)]` on first sight;
an untruthy label yields `color or "gray"` and leaves the table alone.
Returns the updated table and the colour used (`this_color`). -/
def colorForLabel (tbl : List (String × String)) (label : Option String)
    (color : Option String) : List (String × String) × String :=
  if pyTruthyS label then
    let l := label.getD ""
    match tbl.lookup l with
    | some c => (tbl, c)
    | none =>
      let c := palette.getD (tbl.length % palette.length) ""
      (tbl ++ [(l, c)], c)
  else (tbl, pyOrS color "gray")

/-! ### Trace construction and the panel phases of `ivplot` -/

/-- `fig.add_trace(t, row=…, col=…)`: plotly raises when the position is not
a subplot of the grid, leaving the figure unchanged. -/
def tryAdd (st : FigState) (t : Trace) : FigState × Option Err :=
  if validPos st.layout t.row t.col then
    ({ st with traces := st.traces ++ [t] }, none)
  else (st, some .gridErr)

/-- A 2D scatter trace of the left/right columns: colour bound to the shared
axis `axis` with per-point values `cvals`, legend always hidden. -/
def mk2dTrace (row col axis : ℕ) (x y : List ℚ) (isLog : Bool)
    (cvals : List ℚ) (args : Args) (alphaEff : ℚ) : Trace :=
  { row := row, col := col, kind := .scatter2d, x := x, y := y, z := [],
    isLogData := isLog, color := .axisBound axis cvals, opacity := alphaEff,
    name := pyOrS args.label "dataset",
    legendgroup := pyOrS args.label "dataset",
    showlegend := false, symbol := toPlotlySymbol args.marker,
    size := args.markersize }

/-- The `go.Scatter3d` branch of `_add_3d`: direct colour `this_color`,
marker scaled by 0.3 for cross-shaped glyphs, legend only for a truthy label
in the top (log) scene. -/
def mk3dScatter (row : ℕ) (x y z : List ℚ) (isLog : Bool)
    (thisColor : String) (args : Args) (alphaEff : ℚ) : Trace :=
  let scale : ℚ :=
    if args.marker == "x" || args.marker == "+" || args.marker == "cross"
    then 0.3 else 1
  { row := row, col := 2, kind := .scatter3d, x := x, y := y, z := z,
    isLogData := isLog, color := .direct thisColor, opacity := alphaEff,
    name := pyOrS args.label "dataset",
    legendgroup := pyOrS args.label "dataset",
    showlegend := pyTruthyS args.label && row == 1,
    symbol := toPlotlySymbol args.marker, size := args.markersize * scale }

/-- The `go.Mesh3d` branch of `_add_3d`: colour is `color or None` (the
explicit override, not the per-label colour); triangle connectivity comes
from the external `matplotlib.tri.Triangulation` and is not modelled. -/
def mk3dMesh (row : ℕ) (x y z : List ℚ) (isLog : Bool) (args : Args)
    (alphaEff : ℚ) : Trace :=
  { row := row, col := 2, kind := .mesh3d, x := x, y := y, z := z,
    isLogData := isLog, color := .meshC (pyOrOpt args.color),
    opacity := alphaEff,
    name := pyOrS args.label "dataset",
    legendgroup := pyOrS args.label "dataset",
    showlegend := pyTruthyS args.label && row == 1,
    symbol := "", size := 0 }

/-- Whether `matplotlib.tri.Triangulation` imported successfully (the
`_Triangulation is not None` test); assumed available. -/
def triAvailable : Bool := true

/-- The inner `_add_3d(row, x, y, z)` of `ivplot`. -/
def add3d (args : Args) (alphaEff : ℚ) (thisColor : String) (st : FigState)
    (row : ℕ) (x y z : List ℚ) (isLog : Bool) : FigState × Option Err :=
  if args.surf && triAvailable && decide (3 ≤ z.length) then
    tryAdd st (mk3dMesh row x y z isLog args alphaEff)
  else
    tryAdd st (mk3dScatter row x y z isLog thisColor args alphaEff)

/-- The LEFT column of `ivplot` (`view in ['vgs', 'all']`): pool the
`'g'`/`'both'` records, concatenate, downsample, log-mask, widen colour axis
1 with the `vds` column, then add the log-row trace (only when the mask hits)
and the linear-row trace. -/
def phaseVgs (sweeps : List SweepRec) (args : Args) (st : FigState) :
    FigState × Option Err :=
  let frames := (sweeps.filter fun s =>
    typeGet s == "g" || typeGet s == "both").map (·.data)
  if frames.isEmpty then (st, none)
  else
    match downsample frames.flatten args.maxSamples args.rngSeed with
    | .error e => (st, some e)
    | .ok rows =>
      let idsLin := rows.map (·.ids)
      let p := logIds idsLin eps12
      let mask := p.1
      let logArgs := p.2
      let vgs := rows.map (·.vgs)
      let vds := rows.map (·.vds)
      let alphaEff := pyOrQ args.alpha (adaptiveAlpha mask.length)
      match updateColoraxisRange st 1 (vds.map some) with
      | .error e => (st, some e)
      | .ok st1 =>
        let step1 :=
          if mask.any id then
            tryAdd st1 (mk2dTrace 1 1 1 (boolIndex vgs mask) logArgs true
              (boolIndex vds mask) args alphaEff)
          else (st1, none)
        match step1 with
        | (st2, some e) => (st2, some e)
        | (st2, none) =>
          tryAdd st2 (mk2dTrace 2 1 1 vgs idsLin false vds args alphaEff)

/-- The RIGHT column of `ivplot` (`view in ['vds', 'all']`): pool the
`'d'`/`'both'` records; colour axis 2 is widened with the `vgs` column and
traces go to column 3 with `x = vds`. -/
def phaseVds (sweeps : List SweepRec) (args : Args) (st : FigState) :
    FigState × Option Err :=
  let frames := (sweeps.filter fun s =>
    typeGet s == "d" || typeGet s == "both").map (·.data)
  if frames.isEmpty then (st, none)
  else
    match downsample frames.flatten args.maxSamples args.rngSeed with
    | .error e => (st, some e)
    | .ok rows =>
      let idsLin := rows.map (·.ids)
      let p := logIds idsLin eps12
      let mask := p.1
      let logArgs := p.2
      let vgs := rows.map (·.vgs)
      let vds := rows.map (·.vds)
      let alphaEff := pyOrQ args.alpha (adaptiveAlpha mask.length)
      match updateColoraxisRange st 2 (vgs.map some) with
      | .error e => (st, some e)
      | .ok st1 =>
        let step1 :=
          if mask.any id then
            tryAdd st1 (mk2dTrace 1 3 2 (boolIndex vds mask) logArgs true
              (boolIndex vgs mask) args alphaEff)
          else (st1, none)
        match step1 with
        | (st2, some e) => (st2, some e)
        | (st2, none) =>
          tryAdd st2 (mk2dTrace 2 3 2 vds idsLin false vgs args alphaEff)

/-- The MIDDLE 3D scenes of `ivplot` (`view in ['3d', 'all']`): concatenate
every record (`pd.concat` raises on an empty list), downsample, log-mask,
resolve the per-label colour (mutating `_label_colors`), then `_add_3d` into
the log scene (row 1, only when the mask hits) and the linear scene
(row 2). -/
def phase3d (sweeps : List SweepRec) (args : Args) (st : FigState) :
    FigState × Option Err :=
  let frames := sweeps.map (·.data)
  if frames.isEmpty then (st, some .emptyConcat)
  else
    match downsample frames.flatten args.maxSamples args.rngSeed with
    | .error e => (st, some e)
    | .ok rows =>
      let idsLin := rows.map (·.ids)
      let p := logIds idsLin eps12
      let mask := p.1
      let logArgs := p.2
      let vgs := rows.map (·.vgs)
      let vds := rows.map (·.vds)
      let alphaEff := pyOrQ args.alpha (adaptiveAlpha mask.length)
      let r := colorForLabel st.labelColors args.label args.color
      let st1 := { st with labelColors := r.1 }
      let thisColor := r.2
      let step1 :=
        if mask.any id then
          add3d args alphaEff thisColor st1 1 (boolIndex vgs mask)
            (boolIndex vds mask) logArgs true
        else (st1, none)
      match step1 with
      | (st2, some e) => (st2, some e)
      | (st2, none) => add3d args alphaEff thisColor st2 2 vgs vds idsLin false

/-- `ivplot(sweeps, fig, …)`: ensure a figure, then run the three panel
phases in source order, propagating the first raised exception while keeping
every mutation already performed (Python in-place semantics).  The HTML
export tail is presentation-only and outside the model. -/
def ivplot (sweeps : List SweepRec) (fig : Option FigState) (args : Args) :
    FigState × Option Err :=
  let st0 := ensureFig fig args.view
  let r1 := if args.view == "vgs" || args.view == "all"
            then phaseVgs sweeps args st0 else (st0, none)
  match r1 with
  | (st1, some e) => (st1, some e)
  | (st1, none) =>
    let r2 := if args.view == "vds" || args.view == "all"
              then phaseVds sweeps args st1 else (st1, none)
    match r2 with
    | (st2, some e) => (st2, some e)
    | (st2, none) =>
      if args.view == "3d" || args.view == "all"
      then phase3d sweeps args st2 else (st2, none)

/-! ## General lemmas about the helpers -/

lemma boolIndex_map_eq_filter {α : Type} (p : α → Bool) :
    ∀ xs : List α, boolIndex xs (xs.map p) = xs.filter p := by
  intro xs
  induction xs with
  | nil => rfl
  | cons a t ih =>
    by_cases h : p a <;> simp [boolIndex, List.filter_cons, h] at ih ⊢ <;>
      exact ih

lemma getD_map_mask {α : Type} (p : α → Bool) (d : α) :
    ∀ (xs : List α) (i : ℕ), (xs.map p).getD i (p d) = p (xs.getD i d) := by
  intro xs
  induction xs with
  | nil => intro i; rfl
  | cons a t ih =>
    intro i
    cases i with
    | zero => rfl
    | succ j => simp only [List.map_cons, List.getD_cons_succ]; exact ih j

/-! ## Claim C8: the adaptive opacity function -/

/-- **C8.** For every sample count `n` (clamped to at least 1),
`adaptive_alpha(n)` equals 0.8 when `n ≤ 100`, 0.1 when `n ≥ 1000`, and
`0.8 − (n−100)·(0.7/900)` for `100 < n < 1000`. -/
theorem claimC8_adaptive_alpha (n : ℕ) :
    (n ≤ 100 → adaptiveAlpha n = 0.8) ∧
    (1000 ≤ n → adaptiveAlpha n = 0.1) ∧
    (100 < n → n < 1000 →
      adaptiveAlpha n = 0.8 - ((n : ℚ) - 100) * (0.7 / 900)) := by
  refine ⟨fun h => ?_, fun h => ?_, fun h1 h2 => ?_⟩
  · have hm : max 1 n ≤ 100 := by omega
    simp [adaptiveAlpha, hm]
  · have hm1 : ¬ max 1 n ≤ 100 := by omega
    have hm2 : 1000 ≤ max 1 n := by omega
    simp [adaptiveAlpha, hm1, hm2]
  · have he : max 1 n = n := by omega
    have g1 : ¬ n ≤ 100 := by omega
    have g2 : ¬ 1000 ≤ n := by omega
    simp [adaptiveAlpha, he, g1, g2]

/-- Witness for C8: the three spec sample points 100 ↦ 0.8, 1000 ↦ 0.1,
550 ↦ 0.45. -/
theorem claimC8_witness :
    adaptiveAlpha 100 = 0.8 ∧ adaptiveAlpha 1000 = 0.1 ∧
    adaptiveAlpha 550 = 0.45 := by
  refine ⟨(claimC8_adaptive_alpha 100).1 (by norm_num),
          (claimC8_adaptive_alpha 1000).2.1 (by norm_num), ?_⟩
  rw [(claimC8_adaptive_alpha 550).2.2 (by norm_num) (by norm_num)]
  norm_num

/-! ## Claim C7: the log-domain mask -/

/-- **C7.** `_log_ids` with epsilon `1e-12` returns the mask selecting
exactly the strictly positive currents, together with the parallel sequence
`log10(current + eps)` over the masked entries only; non-positive currents
are excluded from the log sequence; on `[-1, 0, 1e-13, 1]` the mask is
`[False, False, True, True]` with log values `log10(1e-13 + 1e-12)` and
`log10(1 + 1e-12)`. -/
theorem claimC7_log_mask :
    (∀ (ids : List ℚ) (i : ℕ),
      ((logIds ids eps12).1).getD i false = decide (0 < ids.getD i 0)) ∧
    (∀ ids : List ℚ,
      (logIds ids eps12).2 =
        (ids.filter fun x => decide (0 < x)).map (· + eps12)) ∧
    (∀ (ids : List ℚ) (x : ℚ), x ≤ 0 → x + eps12 ∉ (logIds ids eps12).2) ∧
    (logIds [-1, 0, 1 / 10 ^ 13, 1] eps12).1 = [false, false, true, true] ∧
    logVals [-1, 0, 1 / 10 ^ 13, 1] eps12 =
      [Real.logb 10 ((11 / 10 ^ 13 : ℚ) : ℝ),
       Real.logb 10 ((1 + 1 / 10 ^ 12 : ℚ) : ℝ)] := by
  have hmask : ∀ (ids : List ℚ) (i : ℕ),
      ((logIds ids eps12).1).getD i false = decide (0 < ids.getD i 0) := by
    intro ids i
    have := getD_map_mask (fun x : ℚ => decide (0 < x)) 0 ids i
    simpa [logIds] using this
  have hfilter : ∀ ids : List ℚ,
      (logIds ids eps12).2 =
        (ids.filter fun x => decide (0 < x)).map (· + eps12) := by
    intro ids
    simp [logIds, boolIndex_map_eq_filter]
  refine ⟨hmask, hfilter, ?_, ?_, ?_⟩
  · intro ids x hx hmem
    rw [hfilter] at hmem
    rcases List.mem_map.mp hmem with ⟨y, hy, hxy⟩
    have hypos : 0 < y := by
      have := List.mem_filter.mp hy
      simpa using this.2
    have : x = y := by linarith [add_right_cancel hxy]
    linarith
  · norm_num [logIds, eps12]
  · have : logVals [-1, 0, 1 / 10 ^ 13, 1] eps12 =
        [((1 / 10 ^ 13 + eps12 : ℚ) : ℝ), ((1 + eps12 : ℚ) : ℝ)].map
          (Real.logb 10) := by
      rw [logVals, hfilter]
      norm_num [eps12]
    rw [this]
    have e1 : ((1 / 10 ^ 13 + eps12 : ℚ) : ℝ) = ((11 / 10 ^ 13 : ℚ) : ℝ) := by
      norm_num [eps12]
    have e2 : ((1 + eps12 : ℚ) : ℝ) = ((1 + 1 / 10 ^ 12 : ℚ) : ℝ) := by
      norm_num [eps12]
    rw [List.map_cons, List.map_cons, List.map_nil, e1, e2]

/-- Witness for C7: instantiating the exclusion clause at the non-positive
current `0` of the spec's example list. -/
theorem claimC7_witness :
    (0 : ℚ) ≤ 0 ∧
    (0 : ℚ) + eps12 ∉ (logIds [-1, 0, 1 / 10 ^ 13, 1] eps12).2 :=
  ⟨le_refl 0, claimC7_log_mask.2.2.1 [-1, 0, 1 / 10 ^ 13, 1] 0 (le_refl 0)⟩

/-! ## Claim C6: downsampling -/

lemma drawK_zero (s : ℕ) (pool : List ℕ) : drawK s pool 0 = [] := by
  cases pool <;> rfl

lemma drawK_nil (s k : ℕ) : drawK s [] k = [] := by
  cases k <;> rfl

lemma drawK_cons (s a : ℕ) (t : List ℕ) (k : ℕ) :
    drawK s (a :: t) (k + 1) =
      (a :: t).getD (lcgNext s % (a :: t).length) 0 ::
        drawK (lcgNext s) ((a :: t).eraseIdx (lcgNext s % (a :: t).length)) k :=
  rfl

lemma drawK_length :
    ∀ (k : ℕ) (s : ℕ) (pool : List ℕ), k ≤ pool.length →
      (drawK s pool k).length = k := by
  intro k
  induction k with
  | zero => intro s pool _; rw [drawK_zero]; rfl
  | succ n ih =>
    intro s pool hk
    match pool, hk with
    | a :: t, hk =>
      have hi : lcgNext s % (a :: t).length < (a :: t).length :=
        Nat.mod_lt _ (by simp)
      have herase :
          (((a :: t).eraseIdx (lcgNext s % (a :: t).length)).length) =
            t.length := by
        rw [List.length_eraseIdx_of_lt hi]
        simp
      rw [drawK_cons, List.length_cons, ih _ _ (by
        rw [herase]
        exact Nat.succ_le_succ_iff.mp (by simpa using hk))]

lemma drawK_subset :
    ∀ (k : ℕ) (s : ℕ) (pool : List ℕ), ∀ x ∈ drawK s pool k, x ∈ pool := by
  intro k
  induction k with
  | zero => intro s pool x hx; rw [drawK_zero] at hx; simp at hx
  | succ n ih =>
    intro s pool x hx
    match pool with
    | [] => rw [drawK_nil] at hx; simp at hx
    | a :: t =>
      rw [drawK_cons, List.mem_cons] at hx
      rcases hx with hx | hx
      · have hi : lcgNext s % (a :: t).length < (a :: t).length :=
          Nat.mod_lt _ (by simp)
        rw [hx, List.getD_eq_getElem _ _ hi]
        exact List.getElem_mem hi
      · exact (List.eraseIdx_sublist (a :: t)
          (lcgNext s % (a :: t).length)).subset (ih _ _ x hx)

lemma getD_not_mem_eraseIdx :
    ∀ (l : List ℕ) (i : ℕ), l.Nodup → i < l.length →
      l.getD i 0 ∉ l.eraseIdx i := by
  intro l
  induction l with
  | nil => intro i _ hi; simp at hi
  | cons a t ih =>
    intro i hnd hi
    cases i with
    | zero =>
      simpa using (List.nodup_cons.mp hnd).1
    | succ j =>
      have hj : j < t.length := by simpa using hi
      have hmem : t.getD j 0 ∈ t := by
        rw [List.getD_eq_getElem _ _ hj]; exact List.getElem_mem hj
      have hne : t.getD j 0 ≠ a := by
        intro he
        exact (List.nodup_cons.mp hnd).1 (he ▸ hmem)
      have ht := ih j (List.nodup_cons.mp hnd).2 hj
      simp only [List.eraseIdx_cons_succ, List.getD_cons_succ,
        List.mem_cons, not_or]
      exact ⟨hne, ht⟩

lemma drawK_nodup :
    ∀ (k : ℕ) (s : ℕ) (pool : List ℕ), pool.Nodup →
      (drawK s pool k).Nodup := by
  intro k
  induction k with
  | zero => intro s pool _; rw [drawK_zero]; exact List.nodup_nil
  | succ n ih =>
    intro s pool hnd
    match pool with
    | [] => rw [drawK_nil]; exact List.nodup_nil
    | a :: t =>
      have hi : lcgNext s % (a :: t).length < (a :: t).length :=
        Nat.mod_lt _ (by simp)
      rw [drawK_cons, List.nodup_cons]
      refine ⟨fun hmem => ?_, ih _ _ ((List.eraseIdx_sublist _ _).nodup hnd)⟩
      exact getD_not_mem_eraseIdx (a :: t) _ hnd hi
        (drawK_subset n _ _ _ hmem)

lemma rngChoice_spec (seed N k : ℕ) (hk : k ≤ N) :
    (rngChoice seed N k).length = k ∧ (rngChoice seed N k).Nodup ∧
      ∀ i ∈ rngChoice seed N k, i < N := by
  refine ⟨drawK_length k seed _ (by simpa using hk),
          drawK_nodup k seed _ (List.nodup_range N),
          fun i hi => ?_⟩
  have := drawK_subset k seed _ i hi
  simpa using this

lemma floor_max_one (cap : ℚ) : ((max 1 ⌊cap⌋).toNat : ℤ) = ⌊max 1 cap⌋ := by
  rcases le_total (1 : ℚ) cap with hc | hc
  · have h1 : (1 : ℤ) ≤ ⌊cap⌋ := by
      rw [Int.le_floor]; exact_mod_cast hc
    rw [max_eq_right hc, max_eq_right h1, Int.toNat_of_nonneg (by omega)]
  · have h1 : ⌊cap⌋ ≤ 1 := by
      calc ⌊cap⌋ ≤ ⌊(1 : ℚ)⌋ := Int.floor_le_floor hc
        _ = 1 := Int.floor_one
    rw [max_eq_left hc, max_eq_left h1]
    simp

/-- **C6.** `_downsample` is the identity (same order) when the cap is unset
(non-finite) or at least the sample count; otherwise it returns exactly
`floor(max(1, cap))` samples, drawn without replacement (distinct in-range
indices) by a generator that is a fixed function of the caller-supplied seed
— the same `(samples, cap, seed)` triple yields the same selection since the
model is a pure function of the triple — and a cap below 1 is clamped so 1
sample is selected rather than failing. -/
theorem claimC6_downsample :
    (∀ (rows : List Sample) (seed : ℕ), downsample rows none seed = .ok rows) ∧
    (∀ (rows : List Sample) (cap : ℚ) (seed : ℕ),
      (rows.length : ℚ) ≤ cap → downsample rows (some cap) seed = .ok rows) ∧
    (∀ (rows : List Sample) (cap : ℚ) (seed : ℕ),
      cap < rows.length → 1 ≤ rows.length →
      downsample rows (some cap) seed =
        .ok ((rngChoice seed rows.length (max 1 ⌊cap⌋).toNat).map
              fun i => rows.getD i default) ∧
      ((max 1 ⌊cap⌋).toNat : ℤ) = ⌊max 1 cap⌋ ∧
      (rngChoice seed rows.length (max 1 ⌊cap⌋).toNat).length =
        (max 1 ⌊cap⌋).toNat ∧
      (rngChoice seed rows.length (max 1 ⌊cap⌋).toNat).Nodup ∧
      ∀ i ∈ rngChoice seed rows.length (max 1 ⌊cap⌋).toNat,
        i < rows.length) ∧
    (∀ (rows : List Sample) (cap : ℚ) (seed : ℕ),
      cap < 1 → 1 ≤ rows.length →
      downsample rows (some cap) seed =
        .ok ((rngChoice seed rows.length 1).map fun i => rows.getD i default) ∧
      (rngChoice seed rows.length 1).length = 1) := by
  have hks : ∀ (rows : List Sample) (cap : ℚ), cap < rows.length →
      1 ≤ rows.length → (max 1 ⌊cap⌋).toNat ≤ rows.length := by
    intro rows cap hlt hN
    have hfl : ⌊cap⌋ < (rows.length : ℤ) := by
      have h : (⌊cap⌋ : ℚ) < (rows.length : ℚ) :=
        lt_of_le_of_lt (Int.floor_le cap) hlt
      exact_mod_cast h
    omega
  have hsel : ∀ (rows : List Sample) (cap : ℚ) (seed : ℕ),
      cap < rows.length → 1 ≤ rows.length →
      downsample rows (some cap) seed =
        .ok ((rngChoice seed rows.length (max 1 ⌊cap⌋).toNat).map
              fun i => rows.getD i default) := by
    intro rows cap seed hlt hN
    have hnle : ¬ ((rows.length : ℚ) ≤ cap) := not_le.mpr hlt
    simp only [downsample, hnle, if_false, hks rows cap hlt hN, if_true]
  refine ⟨fun rows seed => rfl, ?_, ?_, ?_⟩
  · intro rows cap seed hle
    simp only [downsample, hle, if_true]
  · intro rows cap seed hlt hN
    obtain ⟨h1, h2, h3⟩ := rngChoice_spec seed rows.length
      (max 1 ⌊cap⌋).toNat (hks rows cap hlt hN)
    exact ⟨hsel rows cap seed hlt hN, floor_max_one cap, h1, h2, h3⟩
  · intro rows cap seed hlt hN
    have hltN : cap < rows.length := lt_of_lt_of_le hlt (by exact_mod_cast hN)
    have h1 : ⌊cap⌋ < 1 := Int.floor_lt.mpr (by exact_mod_cast hlt)
    have hone : (max 1 ⌊cap⌋).toNat = 1 := by omega
    have hs := hsel rows cap seed hltN hN
    rw [hone] at hs
    exact ⟨hs, (rngChoice_spec seed rows.length 1 hN).1⟩

/-- Witness for C6: five concrete samples, cap 2, seed 0 — the selection has
exactly `floor(max(1,2)) = 2` elements. -/
theorem claimC6_witness :
    (2 : ℚ) < (([⟨1,1,1⟩, ⟨2,2,2⟩, ⟨3,3,3⟩, ⟨4,4,4⟩, ⟨5,5,5⟩] :
      List Sample).length : ℚ) ∧
    (rngChoice 0 5 (max 1 ⌊(2 : ℚ)⌋).toNat).length = (max 1 ⌊(2 : ℚ)⌋).toNat :=
  And.intro (by norm_num)
    ((claimC6_downsample.2.2.1 [⟨1,1,1⟩, ⟨2,2,2⟩, ⟨3,3,3⟩, ⟨4,4,4⟩, ⟨5,5,5⟩]
      2 0 (by norm_num) (by norm_num)).2.2.1)

/-! ## Claim C1: the shared colour-axis range tracker -/

instance {α β : Type} [DecidableEq α] [DecidableEq β] :
    DecidableEq (Except α β) := fun a b =>
  match a, b with
  | .ok x, .ok y => decidable_of_iff (x = y) (by simp)
  | .error x, .error y => decidable_of_iff (x = y) (by simp)
  | .ok _, .error _ => isFalse (by simp)
  | .error _, .ok _ => isFalse (by simp)

/-- The value of a stored lower bound, reading the `none` sentinel as the
initial `np.inf`. -/
def loVal (o : Option ℚ) : WithTop ℚ := o.elim ⊤ (fun q => (q : WithTop ℚ))

/-- The value of a stored upper bound, reading the `none` sentinel as the
initial `-np.inf`. -/
def hiVal (o : Option ℚ) : WithBot ℚ := o.elim ⊥ (fun q => (q : WithBot ℚ))

lemma foldl_min_coe :
    ∀ (vs : List ℚ) (acc : ℚ),
      ((vs.foldl min acc : ℚ) : WithTop ℚ) = min (acc : WithTop ℚ) vs.minimum := by
  intro vs
  induction vs with
  | nil => intro acc; simp
  | cons w ws ih =>
    intro acc
    rw [List.foldl_cons, ih (min acc w), List.minimum_cons, WithTop.coe_min,
      min_assoc]

lemma foldl_max_coe :
    ∀ (vs : List ℚ) (acc : ℚ),
      ((vs.foldl max acc : ℚ) : WithBot ℚ) = max (acc : WithBot ℚ) vs.maximum := by
  intro vs
  induction vs with
  | nil => intro acc; simp
  | cons w ws ih =>
    intro acc
    rw [List.foldl_cons, ih (max acc w), List.maximum_cons, WithBot.coe_max,
      max_assoc]

/-- **C1.** A successful `_update_coloraxis_range` sets the stored pair of
the selected axis to the union of the previously stored range with
`(min values, max values)` computed ignoring the non-finite entries
(`filterMap id` drops the NaNs), leaves the other axis alone, and both
ranges are monotonically non-shrinking (the min never increases, the max
never decreases, starting from the `(+∞, −∞)` sentinels of a fresh figure);
on a fresh axis the two calls `[2,5]` then `[1,9]` of the spec yield
`(1, 9)`. -/
theorem claimC1_update_range (st : FigState) (which : ℕ)
    (values : List (Option ℚ)) (st1 : FigState)
    (h : updateColoraxisRange st which values = .ok st1) :
    (which = 1 →
      loVal st1.rangeVds.1 =
        min (loVal st.rangeVds.1) (values.filterMap id).minimum ∧
      hiVal st1.rangeVds.2 =
        max (hiVal st.rangeVds.2) (values.filterMap id).maximum ∧
      st1.rangeVgs = st.rangeVgs) ∧
    (which ≠ 1 →
      loVal st1.rangeVgs.1 =
        min (loVal st.rangeVgs.1) (values.filterMap id).minimum ∧
      hiVal st1.rangeVgs.2 =
        max (hiVal st.rangeVgs.2) (values.filterMap id).maximum ∧
      st1.rangeVds = st.rangeVds) ∧
    loVal st1.rangeVds.1 ≤ loVal st.rangeVds.1 ∧
    hiVal st.rangeVds.2 ≤ hiVal st1.rangeVds.2 ∧
    loVal st1.rangeVgs.1 ≤ loVal st.rangeVgs.1 ∧
    hiVal st.rangeVgs.2 ≤ hiVal st1.rangeVgs.2 ∧
    Except.map (fun s : FigState => s.rangeVds)
      ((updateColoraxisRange (freshFig "all") 1 [some 2, some 5]).bind
        fun s => updateColoraxisRange s 1 [some 1, some 9]) =
      .ok (some 1, some 9) := by
  by_cases he : values.isEmpty
  · simp [updateColoraxisRange, he] at h
  rcases hf : values.filterMap id with _ | ⟨v, vs⟩
  · have hnm : nanMinMax values = none := by simp [nanMinMax, hf]
    simp only [updateColoraxisRange, he, Bool.false_eq_true, if_false,
      hnm] at h
    cases h
    refine ⟨fun _ => ?_, fun _ => ?_, le_refl _, le_refl _, le_refl _,
      le_refl _, by decide⟩ <;>
      simp [List.minimum_nil, List.maximum_nil, inf_top_eq, bot_sup_eq]
  · have hnm : nanMinMax values =
        some (vs.foldl min v, vs.foldl max v) := by simp [nanMinMax, hf]
    have hmin : ((vs.foldl min v : ℚ) : WithTop ℚ) = (v :: vs).minimum := by
      rw [List.minimum_cons, ← foldl_min_coe]
    have hmax : ((vs.foldl max v : ℚ) : WithBot ℚ) = (v :: vs).maximum := by
      rw [List.maximum_cons, ← foldl_max_coe]
    simp only [updateColoraxisRange, he, Bool.false_eq_true, if_false,
      hnm] at h
    by_cases hw : which = 1
    · rw [if_pos hw] at h
      cases h
      dsimp only
      have hlo : loVal (pyMinOpt st.rangeVds.1 (vs.foldl min v)) =
          min (loVal st.rangeVds.1) (v :: vs).minimum := by
        cases hc : st.rangeVds.1 with
        | none => simp [pyMinOpt, loVal, ← hmin]
        | some l => simp [pyMinOpt, loVal, ← hmin, WithTop.coe_min]
      have hhi : hiVal (pyMaxOpt st.rangeVds.2 (vs.foldl max v)) =
          max (hiVal st.rangeVds.2) (v :: vs).maximum := by
        cases hc : st.rangeVds.2 with
        | none => simp [pyMaxOpt, hiVal, ← hmax]
        | some l => simp [pyMaxOpt, hiVal, ← hmax, WithBot.coe_max]
      refine ⟨fun _ => ⟨hlo, hhi, rfl⟩, fun hne => absurd hw hne, ?_, ?_,
        le_refl _, le_refl _, by decide⟩
      · rw [hlo]; exact min_le_left _ _
      · rw [hhi]; exact le_max_left _ _
    · rw [if_neg hw] at h
      cases h
      dsimp only
      have hlo : loVal (pyMinOpt st.rangeVgs.1 (vs.foldl min v)) =
          min (loVal st.rangeVgs.1) (v :: vs).minimum := by
        cases hc : st.rangeVgs.1 with
        | none => simp [pyMinOpt, loVal, ← hmin]
        | some l => simp [pyMinOpt, loVal, ← hmin, WithTop.coe_min]
      have hhi : hiVal (pyMaxOpt st.rangeVgs.2 (vs.foldl max v)) =
          max (hiVal st.rangeVgs.2) (v :: vs).maximum := by
        cases hc : st.rangeVgs.2 with
        | none => simp [pyMaxOpt, hiVal, ← hmax]
        | some l => simp [pyMaxOpt, hiVal, ← hmax, WithBot.coe_max]
      refine ⟨fun hw1 => absurd hw1 hw, fun _ => ⟨hlo, hhi, rfl⟩,
        le_refl _, le_refl _, ?_, ?_, by decide⟩
      · rw [hlo]; exact min_le_left _ _
      · rw [hhi]; exact le_max_left _ _

/-- Witness for C1: the first update of a fresh figure with values `[2, 5]`
succeeds, and its lower bound does not exceed the previous (infinite)
bound. -/
theorem claimC1_witness :
    updateColoraxisRange (freshFig "all") 1 [some 2, some 5] =
      .ok { layout := .sixPanel, rangeVds := (some 2, some 5),
            rangeVgs := (none, none), labelColors := [], traces := [] } ∧
    loVal ({ layout := .sixPanel, rangeVds := (some 2, some 5),
             rangeVgs := (none, none), labelColors := [],
             traces := [] } : FigState).rangeVds.1 ≤
      loVal (freshFig "all").rangeVds.1 := by
  have h : updateColoraxisRange (freshFig "all") 1 [some 2, some 5] =
      .ok { layout := .sixPanel, rangeVds := (some 2, some 5),
            rangeVgs := (none, none), labelColors := [], traces := [] } := by
    decide
  exact ⟨h, (claimC1_update_range _ _ _ _ h).2.2.1⟩

/-! ## Claim C2: deterministic per-label colour assignment -/

lemma lookup_append_left {l1 l2 : List (String × String)} {k c : String}
    (h : l1.lookup k = some c) : (l1 ++ l2).lookup k = some c := by
  induction l1 with
  | nil => simp [List.lookup] at h
  | cons p t ih =>
    cases hk : (k == p.1) with
    | false =>
      simp only [List.cons_append, List.lookup, hk] at h ⊢
      exact ih h
    | true =>
      simp only [List.cons_append, List.lookup, hk] at h ⊢
      exact h

lemma lookup_append_right_of_none {l1 l2 : List (String × String)}
    {k : String} (h : l1.lookup k = none) :
    (l1 ++ l2).lookup k = l2.lookup k := by
  induction l1 with
  | nil => simp
  | cons p t ih =>
    cases hk : (k == p.1) with
    | false =>
      simp only [List.cons_append, List.lookup, hk] at h ⊢
      exact ih h
    | true =>
      simp only [List.cons_append, List.lookup, hk] at h
      exact (Option.some_ne_none _ h).elim

/-- The colours stored in a table reachable from the empty table: position
`i` holds palette entry `i % len(palette)`. -/
def sndAligned (tbl : List (String × String)) : Prop :=
  tbl.map Prod.snd =
    (List.range tbl.length).map fun i => palette.getD (i % palette.length) ""

lemma palette_getD_inj :
    ∀ i < palette.length, ∀ j < palette.length,
      palette.getD i "" = palette.getD j "" → i = j := by decide

/-- **C2.** The per-label colour step of `ivplot`: an untruthy label yields
the explicit colour override or `"gray"`; a truthy label already in the
table keeps its stored colour and leaves the table unchanged; a fresh truthy
label is appended with the next palette entry (cyclically by insertion
count), which — on a table built by this policy that has not yet exhausted
the palette — is a colour not yet in use; existing bindings are never
changed, the palette policy is preserved, and the palette holds at least 8
distinct named colours.  The spec example: "A" gets the first entry, keeps
it on a second call, and "B" gets the second entry. -/
theorem claimC2_color_for_label (tbl : List (String × String))
    (label color : Option String) :
    (pyTruthyS label = false →
      colorForLabel tbl label color = (tbl, pyOrS color "gray")) ∧
    (pyTruthyS label = true →
      (∀ c, tbl.lookup (label.getD "") = some c →
        colorForLabel tbl label color = (tbl, c)) ∧
      (tbl.lookup (label.getD "") = none →
        colorForLabel tbl label color =
          (tbl ++ [(label.getD "",
            palette.getD (tbl.length % palette.length) "")],
           palette.getD (tbl.length % palette.length) "") ∧
        (colorForLabel tbl label color).1.lookup (label.getD "") =
          some (colorForLabel tbl label color).2 ∧
        (sndAligned tbl → tbl.length < palette.length →
          (colorForLabel tbl label color).2 ∉ tbl.map Prod.snd))) ∧
    (∀ l0 c0, tbl.lookup l0 = some c0 →
      (colorForLabel tbl label color).1.lookup l0 = some c0) ∧
    (sndAligned tbl → sndAligned (colorForLabel tbl label color).1) ∧
    8 ≤ palette.length ∧ palette.Nodup ∧
    colorForLabel [] (some "A") none = ([("A", "crimson")], "crimson") ∧
    colorForLabel [("A", "crimson")] (some "A") none =
      ([("A", "crimson")], "crimson") ∧
    colorForLabel [("A", "crimson")] (some "B") none =
      ([("A", "crimson"), ("B", "royalblue")], "royalblue") := by
  refine ⟨fun ht => by simp [colorForLabel, ht], fun ht => ⟨?_, ?_⟩,
    ?_, ?_, by decide, by decide, by decide, by decide, by decide⟩
  · intro c hc
    simp [colorForLabel, ht, hc]
  · intro hnone
    have hpair : colorForLabel tbl label color =
        (tbl ++ [(label.getD "",
          palette.getD (tbl.length % palette.length) "")],
         palette.getD (tbl.length % palette.length) "") := by
      simp [colorForLabel, ht, hnone]
    refine ⟨hpair, ?_, ?_⟩
    · rw [hpair]
      rw [lookup_append_right_of_none hnone]
      simp [List.lookup]
    · intro halign hlen hmem
      rw [hpair] at hmem
      simp only at hmem
      rw [Nat.mod_eq_of_lt hlen, halign] at hmem
      obtain ⟨i, hi, he⟩ := List.mem_map.mp hmem
      have hilt : i < tbl.length := List.mem_range.mp hi
      rw [Nat.mod_eq_of_lt (lt_trans hilt hlen)] at he
      have := palette_getD_inj i (lt_trans hilt hlen) tbl.length hlen he
      omega
  · intro l0 c0 hl0
    by_cases ht : pyTruthyS label
    · cases hl : tbl.lookup (label.getD "") with
      | some c => simpa [colorForLabel, ht, hl] using hl0
      | none =>
        simp only [colorForLabel, ht, if_true, hl]
        exact lookup_append_left hl0
    · simpa [colorForLabel, ht] using hl0
  · intro halign
    by_cases ht : pyTruthyS label
    · cases hl : tbl.lookup (label.getD "") with
      | some c => simpa [colorForLabel, ht, hl] using halign
      | none =>
        simp only [colorForLabel, ht, if_true, hl]
        unfold sndAligned at halign ⊢
        rw [List.map_append, List.length_append, halign]
        simp only [List.map_cons, List.map_nil, List.length_cons,
          List.length_nil, Nat.zero_add]
        rw [List.range_succ, List.map_append]
        simp only [List.map_cons, List.map_nil]
    · simpa [colorForLabel, ht] using halign

/-- Witness for C2: a table already holding "A" ↦ "crimson" returns the
stored colour unchanged on a repeat call. -/
theorem claimC2_witness :
    pyTruthyS (some "A") = true ∧
    ([("A", "crimson")] : List (String × String)).lookup "A" =
      some "crimson" ∧
    colorForLabel [("A", "crimson")] (some "A") none =
      ([("A", "crimson")], "crimson") :=
  ⟨by decide, by decide,
   ((claimC2_color_for_label [("A", "crimson")] (some "A") none).2.1
      (by decide)).1 "crimson" (by decide)⟩

/-! ## Shape lemmas for the stateful phases -/

lemma tryAdd_spec (st : FigState) (t : Trace) :
    tryAdd st t = (st, some Err.gridErr) ∨
    tryAdd st t = ({ st with traces := st.traces ++ [t] }, none) := by
  unfold tryAdd
  by_cases h : validPos st.layout t.row t.col = true <;> simp [h]

lemma updateCR_ok_fields {st : FigState} {which : ℕ}
    {values : List (Option ℚ)} {st1 : FigState}
    (h : updateColoraxisRange st which values = .ok st1) :
    st1.traces = st.traces ∧ st1.labelColors = st.labelColors ∧
      st1.layout = st.layout := by
  unfold updateColoraxisRange at h
  by_cases he : values.isEmpty
  · simp [he] at h
  · simp only [he, Bool.false_eq_true, if_false] at h
    rcases hnm : nanMinMax values with _ | ⟨vmin, vmax⟩ <;>
      simp only [hnm] at h
    · cases h; exact ⟨rfl, rfl, rfl⟩
    · by_cases hw : which = 1
      · rw [if_pos hw] at h; cases h; exact ⟨rfl, rfl, rfl⟩
      · rw [if_neg hw] at h; cases h; exact ⟨rfl, rfl, rfl⟩

lemma tryAdd_result {s : FigState} {t : Trace} {s2 : FigState}
    {e : Option Err} (h : tryAdd s t = (s2, e)) :
    (s2 = s ∧ e = some Err.gridErr) ∨
    (s2.traces = s.traces ++ [t] ∧ s2.labelColors = s.labelColors ∧
      s2.layout = s.layout ∧ e = none) := by
  unfold tryAdd at h
  split at h
  · cases h; exact Or.inr ⟨rfl, rfl, rfl, rfl⟩
  · cases h; exact Or.inl ⟨rfl, rfl⟩

/-- The per-trace facts delivered by the two 2D phases. -/
def is2dTrace (args : Args) (col : ℕ) (t : Trace) : Prop :=
  t.kind = TraceKind.scatter2d ∧ t.col = col ∧ t.showlegend = false ∧
    ∃ m, t.opacity = pyOrQ args.alpha (adaptiveAlpha m)

/-- The per-trace facts delivered by the 3D phase: placed in the middle
column of one of the two scenes, legend only for a truthy label in the log
scene, point clouds coloured with the per-label colour `c`, meshes with the
explicit override. -/
def is3dTrace (args : Args) (c : String) (t : Trace) : Prop :=
  (t.kind = TraceKind.scatter3d ∨ t.kind = TraceKind.mesh3d) ∧
  t.col = 2 ∧ (t.row = 1 ∨ t.row = 2) ∧
  (t.showlegend = true → pyTruthyS args.label = true ∧ t.row = 1) ∧
  (t.kind = TraceKind.scatter3d → t.color = TraceColor.direct c) ∧
  (t.kind = TraceKind.mesh3d →
    t.color = TraceColor.meshC (pyOrOpt args.color)) ∧
  ∃ m, t.opacity = pyOrQ args.alpha (adaptiveAlpha m)

lemma is2d_mk (args : Args) (row col axis : ℕ) (x y : List ℚ) (l : Bool)
    (cv : List ℚ) (m : ℕ) :
    is2dTrace args col (mk2dTrace row col axis x y l cv args
      (pyOrQ args.alpha (adaptiveAlpha m))) :=
  ⟨rfl, rfl, rfl, ⟨m, rfl⟩⟩

lemma is3d_mk_mesh (args : Args) (c : String) (row : ℕ)
    (hrow : row = 1 ∨ row = 2) (x y z : List ℚ) (l : Bool) (m : ℕ) :
    is3dTrace args c (mk3dMesh row x y z l args
      (pyOrQ args.alpha (adaptiveAlpha m))) := by
  refine ⟨Or.inr rfl, rfl, hrow, ?_, ?_, fun _ => rfl, ⟨m, rfl⟩⟩
  · intro hsl
    exact by simpa [mk3dMesh] using hsl
  · intro hk
    exact absurd hk (by simp [mk3dMesh])

lemma is3d_mk_scatter (args : Args) (c : String) (row : ℕ)
    (hrow : row = 1 ∨ row = 2) (x y z : List ℚ) (l : Bool) (m : ℕ) :
    is3dTrace args c (mk3dScatter row x y z l c args
      (pyOrQ args.alpha (adaptiveAlpha m))) := by
  refine ⟨Or.inl rfl, rfl, hrow, ?_, fun _ => rfl, ?_, ⟨m, rfl⟩⟩
  · intro hsl
    exact by simpa [mk3dScatter] using hsl
  · intro hk
    exact absurd hk (by simp [mk3dScatter])

/-- `tryAdd` extends the accumulated traces by at most the given trace and
touches nothing else. -/
lemma exists_new_tryAdd (st2 : FigState) (t : Trace) (base : List Trace)
    (L : List (String × String)) (ly : Layout) (pre : List Trace)
    (P : Trace → Prop) (htr : st2.traces = base ++ pre)
    (hlc : st2.labelColors = L) (hly : st2.layout = ly)
    (hpre : ∀ u ∈ pre, P u) (hT : P t) :
    ∃ new, (tryAdd st2 t).1.traces = base ++ new ∧
      (tryAdd st2 t).1.labelColors = L ∧
      (tryAdd st2 t).1.layout = ly ∧ ∀ u ∈ new, P u := by
  unfold tryAdd
  by_cases h : validPos st2.layout t.row t.col = true
  · rw [if_pos h]
    refine ⟨pre ++ [t], by simp [htr], hlc, hly, ?_⟩
    intro u hu
    rcases List.mem_append.mp hu with hu | hu
    · exact hpre u hu
    · rw [List.mem_singleton.mp hu]; exact hT
  · rw [if_neg h]
    exact ⟨pre, htr, hlc, hly, hpre⟩

/-- `_add_3d` adds one mesh or one point-cloud trace (or nothing, when the
grid rejects the position). -/
lemma exists_new_add3d (args : Args) (a : ℚ) (c : String) (st2 : FigState)
    (row : ℕ) (x y z : List ℚ) (l : Bool) (base : List Trace)
    (L : List (String × String)) (ly : Layout) (pre : List Trace)
    (P : Trace → Prop) (htr : st2.traces = base ++ pre)
    (hlc : st2.labelColors = L) (hly : st2.layout = ly)
    (hpre : ∀ u ∈ pre, P u) (hmesh : P (mk3dMesh row x y z l args a))
    (hscat : P (mk3dScatter row x y z l c args a)) :
    ∃ new, (add3d args a c st2 row x y z l).1.traces = base ++ new ∧
      (add3d args a c st2 row x y z l).1.labelColors = L ∧
      (add3d args a c st2 row x y z l).1.layout = ly ∧ ∀ u ∈ new, P u := by
  unfold add3d
  split
  · exact exists_new_tryAdd st2 _ base L ly pre P htr hlc hly hpre hmesh
  · exact exists_new_tryAdd st2 _ base L ly pre P htr hlc hly hpre hscat

lemma phaseVgs_spec (sweeps : List SweepRec) (args : Args) (st : FigState) :
    ∃ new, (phaseVgs sweeps args st).1.traces = st.traces ++ new ∧
      (phaseVgs sweeps args st).1.labelColors = st.labelColors ∧
      (phaseVgs sweeps args st).1.layout = st.layout ∧
      ∀ t ∈ new, is2dTrace args 1 t := by
  simp only [phaseVgs]
  split
  · exact ⟨[], by simp⟩
  split
  · exact ⟨[], by simp⟩
  next rows hds =>
    split
    · exact ⟨[], by simp⟩
    next st1 hu =>
      obtain ⟨htr, hlc, hly⟩ := updateCR_ok_fields hu
      split
      next st2 e heq =>
        split at heq
        · rcases tryAdd_result heq with ⟨hs, _⟩ | ⟨_, _, _, he⟩
          · subst hs
            exact ⟨[], by simp [htr], by simp [hlc], by simp [hly], by simp⟩
          · exact absurd he (by simp)
        · cases heq
      next st2 heq =>
        split at heq
        · rcases tryAdd_result heq with ⟨_, he⟩ | ⟨hts, hlc2, hly2, _⟩
          · exact absurd he.symm (by simp)
          · refine exists_new_tryAdd st2 _ st.traces st.labelColors
              st.layout _ _ (by rw [hts, htr]) (hlc2.trans hlc)
              (hly2.trans hly) ?_ (is2d_mk args 2 1 1 _ _ false _ _)
            intro u hu
            rw [List.mem_singleton.mp hu]
            exact is2d_mk args 1 1 1 _ _ true _ _
        · cases heq
          exact exists_new_tryAdd st1 _ st.traces st.labelColors st.layout
            [] _ (by rw [htr]; simp) hlc hly (by simp)
            (is2d_mk args 2 1 1 _ _ false _ _)

lemma phaseVds_spec (sweeps : List SweepRec) (args : Args) (st : FigState) :
    ∃ new, (phaseVds sweeps args st).1.traces = st.traces ++ new ∧
      (phaseVds sweeps args st).1.labelColors = st.labelColors ∧
      (phaseVds sweeps args st).1.layout = st.layout ∧
      ∀ t ∈ new, is2dTrace args 3 t := by
  simp only [phaseVds]
  split
  · exact ⟨[], by simp⟩
  split
  · exact ⟨[], by simp⟩
  next rows hds =>
    split
    · exact ⟨[], by simp⟩
    next st1 hu =>
      obtain ⟨htr, hlc, hly⟩ := updateCR_ok_fields hu
      split
      next st2 e heq =>
        split at heq
        · rcases tryAdd_result heq with ⟨hs, _⟩ | ⟨_, _, _, he⟩
          · subst hs
            exact ⟨[], by simp [htr], by simp [hlc], by simp [hly], by simp⟩
          · exact absurd he (by simp)
        · cases heq
      next st2 heq =>
        split at heq
        · rcases tryAdd_result heq with ⟨_, he⟩ | ⟨hts, hlc2, hly2, _⟩
          · exact absurd he.symm (by simp)
          · refine exists_new_tryAdd st2 _ st.traces st.labelColors
              st.layout _ _ (by rw [hts, htr]) (hlc2.trans hlc)
              (hly2.trans hly) ?_ (is2d_mk args 2 3 2 _ _ false _ _)
            intro u hu
            rw [List.mem_singleton.mp hu]
            exact is2d_mk args 1 3 2 _ _ true _ _
        · cases heq
          exact exists_new_tryAdd st1 _ st.traces st.labelColors st.layout
            [] _ (by rw [htr]; simp) hlc hly (by simp)
            (is2d_mk args 2 3 2 _ _ false _ _)

lemma repackage3d (res : FigState × Option Err) (base : List Trace)
    (ly : Layout) (L0 L1 : List (String × String)) (P : Trace → Prop)
    (h : ∃ new, res.1.traces = base ++ new ∧ res.1.labelColors = L1 ∧
      res.1.layout = ly ∧ ∀ u ∈ new, P u) :
    ∃ new, res.1.traces = base ++ new ∧ res.1.layout = ly ∧
      (res.1.labelColors = L0 ∨ res.1.labelColors = L1) ∧
      (res.2 = none → res.1.labelColors = L1) ∧ ∀ u ∈ new, P u := by
  obtain ⟨new, h1, h2, h3, h4⟩ := h
  exact ⟨new, h1, h3, Or.inr h2, fun _ => h2, h4⟩

lemma phase3d_spec (sweeps : List SweepRec) (args : Args) (st : FigState) :
    ∃ new, (phase3d sweeps args st).1.traces = st.traces ++ new ∧
      (phase3d sweeps args st).1.layout = st.layout ∧
      ((phase3d sweeps args st).1.labelColors = st.labelColors ∨
        (phase3d sweeps args st).1.labelColors =
          (colorForLabel st.labelColors args.label args.color).1) ∧
      ((phase3d sweeps args st).2 = none →
        (phase3d sweeps args st).1.labelColors =
          (colorForLabel st.labelColors args.label args.color).1) ∧
      ∀ t ∈ new,
        is3dTrace args
          (colorForLabel st.labelColors args.label args.color).2 t := by
  simp only [phase3d]
  split
  · exact ⟨[], by simp, rfl, Or.inl rfl, fun h => Option.noConfusion h,
      by simp⟩
  split
  · exact ⟨[], by simp, rfl, Or.inl rfl, fun h => Option.noConfusion h,
      by simp⟩
  next rows hds =>
    split
    next st2 e heq =>
      split at heq
      · unfold add3d at heq
        split at heq
        · rcases tryAdd_result heq with ⟨hs, _⟩ | ⟨_, _, _, he⟩
          · subst hs
            exact ⟨[], by simp, rfl, Or.inr rfl,
              fun h => Option.noConfusion h, by simp⟩
          · exact absurd he (by simp)
        · rcases tryAdd_result heq with ⟨hs, _⟩ | ⟨_, _, _, he⟩
          · subst hs
            exact ⟨[], by simp, rfl, Or.inr rfl,
              fun h => Option.noConfusion h, by simp⟩
          · exact absurd he (by simp)
      · cases heq
    next st2 heq =>
      split at heq
      · unfold add3d at heq
        split at heq
        · rcases tryAdd_result heq with ⟨_, he⟩ | ⟨hts, hlc2, hly2, _⟩
          · exact absurd he.symm (by simp)
          · refine repackage3d _ _ _ _ _ _
              (exists_new_add3d args _ _ st2 2 _ _ _ false st.traces _
                st.layout _ _ (by rw [hts]) hlc2 hly2 ?_
                (is3d_mk_mesh args _ 2 (Or.inr rfl) _ _ _ false _)
                (is3d_mk_scatter args _ 2 (Or.inr rfl) _ _ _ false _))
            intro u hu
            rw [List.mem_singleton.mp hu]
            exact is3d_mk_mesh args _ 1 (Or.inl rfl) _ _ _ true _
        · rcases tryAdd_result heq with ⟨_, he⟩ | ⟨hts, hlc2, hly2, _⟩
          · exact absurd he.symm (by simp)
          · refine repackage3d _ _ _ _ _ _
              (exists_new_add3d args _ _ st2 2 _ _ _ false st.traces _
                st.layout _ _ (by rw [hts]) hlc2 hly2 ?_
                (is3d_mk_mesh args _ 2 (Or.inr rfl) _ _ _ false _)
                (is3d_mk_scatter args _ 2 (Or.inr rfl) _ _ _ false _))
            intro u hu
            rw [List.mem_singleton.mp hu]
            exact is3d_mk_scatter args _ 1 (Or.inl rfl) _ _ _ true _
      · cases heq
        exact repackage3d _ _ _ _ _ _
          (exists_new_add3d args _ _ _ 2 _ _ _ false st.traces _
            st.layout [] _ (by simp) rfl rfl (by simp)
            (is3d_mk_mesh args _ 2 (Or.inr rfl) _ _ _ false _)
            (is3d_mk_scatter args _ 2 (Or.inr rfl) _ _ _ false _))

lemma guard_phase_spec (c : Bool) (f : FigState → FigState × Option Err)
    (P : Trace → Prop)
    (hf : ∀ s : FigState, ∃ nw, (f s).1.traces = s.traces ++ nw ∧
      (f s).1.labelColors = s.labelColors ∧ (f s).1.layout = s.layout ∧
      ∀ t ∈ nw, P t)
    (s : FigState) :
    ∃ nw, (if c = true then f s else (s, none)).1.traces = s.traces ++ nw ∧
      (if c = true then f s else (s, none)).1.labelColors = s.labelColors ∧
      (if c = true then f s else (s, none)).1.layout = s.layout ∧
      ∀ t ∈ nw, P t ∧ c = true := by
  by_cases hc : c = true
  · rw [if_pos hc]
    obtain ⟨nw, h1, h2, h3, h4⟩ := hf s
    exact ⟨nw, h1, h2, h3, fun t ht => ⟨h4 t ht, hc⟩⟩
  · rw [if_neg hc]
    exact ⟨[], by simp, rfl, rfl, by simp⟩

/-- Everything one `ivplot` call does to the figure state: traces are only
appended, the layout is never changed, the label table is either untouched
or updated by one `colorForLabel` step (always updated on a successful call
that includes the 3D pool), and every appended trace comes from the panel
family its view selector enabled, with the properties of that family. -/
lemma ivplot_spec (sweeps : List SweepRec) (args : Args)
    (fig : Option FigState) :
    ∃ new, (ivplot sweeps fig args).1.traces =
        (ensureFig fig args.view).traces ++ new ∧
      (ivplot sweeps fig args).1.layout = (ensureFig fig args.view).layout ∧
      ((ivplot sweeps fig args).1.labelColors =
          (ensureFig fig args.view).labelColors ∨
        (ivplot sweeps fig args).1.labelColors =
          (colorForLabel (ensureFig fig args.view).labelColors args.label
            args.color).1) ∧
      ((ivplot sweeps fig args).2 = none →
        (args.view == "3d" || args.view == "all") = true →
        (ivplot sweeps fig args).1.labelColors =
          (colorForLabel (ensureFig fig args.view).labelColors args.label
            args.color).1) ∧
      ∀ t ∈ new,
        (is2dTrace args 1 t ∧
          (args.view == "vgs" || args.view == "all") = true) ∨
        (is2dTrace args 3 t ∧
          (args.view == "vds" || args.view == "all") = true) ∨
        (is3dTrace args
            (colorForLabel (ensureFig fig args.view).labelColors args.label
              args.color).2 t ∧
          (args.view == "3d" || args.view == "all") = true) := by
  obtain ⟨n1, H1t, H1l, H1y, H1p⟩ :=
    guard_phase_spec (args.view == "vgs" || args.view == "all")
      (phaseVgs sweeps args) (is2dTrace args 1)
      (phaseVgs_spec sweeps args) (ensureFig fig args.view)
  simp only [ivplot]
  split
  next st1 e heq =>
    rw [heq] at H1t H1l H1y
    have h1t : st1.traces = (ensureFig fig args.view).traces ++ n1 := H1t
    have h1l : st1.labelColors = (ensureFig fig args.view).labelColors := H1l
    have h1y : st1.layout = (ensureFig fig args.view).layout := H1y
    exact ⟨n1, h1t, h1y, Or.inl h1l, fun h => Option.noConfusion h,
      fun t ht => Or.inl ⟨(H1p t ht).1, (H1p t ht).2⟩⟩
  next st1 heq =>
    rw [heq] at H1t H1l H1y
    have h1t : st1.traces = (ensureFig fig args.view).traces ++ n1 := H1t
    have h1l : st1.labelColors = (ensureFig fig args.view).labelColors := H1l
    have h1y : st1.layout = (ensureFig fig args.view).layout := H1y
    obtain ⟨n2, H2t, H2l, H2y, H2p⟩ :=
      guard_phase_spec (args.view == "vds" || args.view == "all")
        (phaseVds sweeps args) (is2dTrace args 3)
        (phaseVds_spec sweeps args) st1
    split
    next st2 e heq2 =>
      rw [heq2] at H2t H2l H2y
      have h2t : st2.traces = st1.traces ++ n2 := H2t
      have h2l : st2.labelColors = st1.labelColors := H2l
      have h2y : st2.layout = st1.layout := H2y
      refine ⟨n1 ++ n2, ?_, ?_, ?_, ?_, ?_⟩
      · rw [h2t, h1t, List.append_assoc]
      · rw [h2y, h1y]
      · exact Or.inl (h2l.trans h1l)
      · exact fun h => Option.noConfusion h
      · intro t ht
        rcases List.mem_append.mp ht with h | h
        · exact Or.inl ⟨(H1p t h).1, (H1p t h).2⟩
        · exact Or.inr (Or.inl ⟨(H2p t h).1, (H2p t h).2⟩)
    next st2 heq2 =>
      rw [heq2] at H2t H2l H2y
      have h2t : st2.traces = st1.traces ++ n2 := H2t
      have h2l : st2.labelColors = st1.labelColors := H2l
      have h2y : st2.layout = st1.layout := H2y
      by_cases hc3 : (args.view == "3d" || args.view == "all") = true
      · rw [if_pos hc3]
        obtain ⟨n3, H3t, H3y, H3l, H3e, H3p⟩ := phase3d_spec sweeps args st2
        refine ⟨n1 ++ n2 ++ n3, ?_, ?_, ?_, ?_, ?_⟩
        · rw [H3t, h2t, h1t]
          simp [List.append_assoc]
        · rw [H3y, h2y, h1y]
        · rcases H3l with h | h
          · exact Or.inl (h.trans (h2l.trans h1l))
          · refine Or.inr ?_
            rw [h, h2l.trans h1l]
        · intro he _
          rw [H3e he, h2l.trans h1l]
        · intro t ht
          rcases List.mem_append.mp ht with h | h
          · rcases List.mem_append.mp h with hx | hx
            · exact Or.inl ⟨(H1p t hx).1, (H1p t hx).2⟩
            · exact Or.inr (Or.inl ⟨(H2p t hx).1, (H2p t hx).2⟩)
          · refine Or.inr (Or.inr ⟨?_, hc3⟩)
            have hp := H3p t h
            rwa [h2l.trans h1l] at hp
      · rw [if_neg hc3]
        refine ⟨n1 ++ n2, ?_, ?_, ?_, ?_, ?_⟩
        · rw [h2t, h1t, List.append_assoc]
        · rw [h2y, h1y]
        · exact Or.inl (h2l.trans h1l)
        · exact fun _ hv => absurd hv hc3
        · intro t ht
          rcases List.mem_append.mp ht with h | h
          · exact Or.inl ⟨(H1p t h).1, (H1p t h).2⟩
          · exact Or.inr (Or.inl ⟨(H2p t h).1, (H2p t h).2⟩)

/-! ## Claim C10: legend visibility -/

/-- **C10.** Every trace a call adds to a 2D panel has legend display
disabled; a trace with a legend entry can only be a labelled 3D trace in
the upper (log) scene (row 1 of the middle column); and a call whose view
selector is `vgs` or `vds` never adds a trace with a legend entry. -/
theorem claimC10_legend (sweeps : List SweepRec) (args : Args)
    (fig : Option FigState) :
    (((ivplot sweeps fig args).1.traces.drop
        (ensureFig fig args.view).traces.length).all
      (fun t => !(t.kind == TraceKind.scatter2d && t.showlegend)) = true) ∧
    (((ivplot sweeps fig args).1.traces.drop
        (ensureFig fig args.view).traces.length).all
      (fun t => !t.showlegend ||
        (t.row == 1 && t.col == 2 && !(t.kind == TraceKind.scatter2d) &&
          pyTruthyS args.label)) = true) ∧
    ((args.view = "vgs" ∨ args.view = "vds") →
      ((ivplot sweeps fig args).1.traces.drop
        (ensureFig fig args.view).traces.length).all
        (fun t => t.showlegend == false) = true) := by
  obtain ⟨new, htr, _, _, _, hp⟩ := ivplot_spec sweeps args fig
  have hdrop : (ivplot sweeps fig args).1.traces.drop
      (ensureFig fig args.view).traces.length = new := by
    rw [htr, List.drop_left]
  refine ⟨?_, ?_, ?_⟩
  · rw [hdrop, List.all_eq_true]
    intro t ht
    rcases hp t ht with ⟨⟨hk, _, hs, _⟩, _⟩ | ⟨⟨hk, _, hs, _⟩, _⟩ |
      ⟨⟨hk3, _, _, _, _, _, _⟩, _⟩
    · simp [hs]
    · simp [hs]
    · rcases hk3 with hk | hk <;> simp [hk]
  · rw [hdrop, List.all_eq_true]
    intro t ht
    rcases hp t ht with ⟨⟨hk, _, hs, _⟩, _⟩ | ⟨⟨hk, _, hs, _⟩, _⟩ |
      ⟨⟨hk3, hc3, _, hsl3, _, _, _⟩, _⟩
    · simp [hs]
    · simp [hs]
    · by_cases hsl : t.showlegend = true
      · obtain ⟨hlab, hrow⟩ := hsl3 hsl
        rcases hk3 with hk | hk <;> simp [hsl, hrow, hc3, hlab, hk]
      · have hf : t.showlegend = false := by
          revert hsl; cases t.showlegend <;> simp
        simp [hf]
  · intro hview
    rw [hdrop, List.all_eq_true]
    intro t ht
    rcases hp t ht with ⟨⟨_, _, hs, _⟩, _⟩ | ⟨⟨_, _, hs, _⟩, _⟩ |
      ⟨_, hv3⟩
    · simp [hs]
    · simp [hs]
    · rcases hview with hv | hv <;> rw [hv] at hv3 <;> simp at hv3

/-- Witness for C10: a gate-view-only call with a label still adds no
legend entry. -/
theorem claimC10_witness :
    (("vgs" : String) = "vgs" ∨ ("vgs" : String) = "vds") ∧
    ((ivplot [⟨[⟨1, 2, 3⟩], some "g"⟩] (some (freshFig "vgs"))
        { defaultArgs with view := "vgs", label := some "A" }).1.traces.drop
      (ensureFig (some (freshFig "vgs"))
        ({ defaultArgs with view := "vgs", label := some "A" } :
          Args).view).traces.length).all
      (fun t => t.showlegend == false) = true :=
  ⟨Or.inl rfl,
   (claimC10_legend [⟨[⟨1, 2, 3⟩], some "g"⟩] _ _).2.2 (Or.inl rfl)⟩

/-! ## Claim C9: explicit opacity -/

/-- **C9 counterexample.** A call that explicitly supplies opacity `0` does
not use it: Python's `alpha or adaptive_alpha(...)` treats `0.0` as falsy,
so both emitted traces use the adaptive opacity `0.8` instead of the
supplied `0`. -/
theorem claimC9_counterexample :
    ({ defaultArgs with view := "vgs", alpha := some 0 } : Args).alpha =
      some 0 ∧
    (ivplot [⟨[⟨1, 2, 1⟩], some "g"⟩] (some (freshFig "vgs"))
      { defaultArgs with view := "vgs", alpha := some 0 }).2 = none ∧
    ((ivplot [⟨[⟨1, 2, 1⟩], some "g"⟩] (some (freshFig "vgs"))
      { defaultArgs with view := "vgs", alpha := some 0 }).1.traces.map
        (fun t => t.opacity)) = [0.8, 0.8] ∧
    (0.8 : ℚ) ≠ 0 := by
  refine ⟨rfl, by decide, ?_, by norm_num⟩
  simp [ivplot, defaultArgs, ensureFig, freshFig, phaseVgs, typeGet,
    downsample, logIds, boolIndex, eps12, updateColoraxisRange, nanMinMax,
    pyMinOpt, pyMaxOpt, tryAdd, validPos, mk2dTrace, pyOrQ, adaptiveAlpha,
    toPlotlySymbol, symbolTable]

/-- **C9 (amended).** Every trace emitted by a call whose explicit opacity
is nonzero uses exactly that opacity; a supplied opacity of `0` is treated
as unset by the `alpha or adaptive_alpha(...)` idiom, so the adaptive
opacity is applied then, exactly as when no opacity is supplied. -/
theorem claimC9_amended (sweeps : List SweepRec) (args : Args)
    (fig : Option FigState) (a : ℚ) (ha : args.alpha = some a)
    (h0 : a ≠ 0) :
    ((ivplot sweeps fig args).1.traces.drop
      (ensureFig fig args.view).traces.length).all
      (fun t => t.opacity == a) = true := by
  obtain ⟨new, htr, _, _, _, hp⟩ := ivplot_spec sweeps args fig
  rw [htr, List.drop_left, List.all_eq_true]
  intro t ht
  have hop : ∃ m, t.opacity = pyOrQ args.alpha (adaptiveAlpha m) := by
    rcases hp t ht with ⟨⟨_, _, _, hm⟩, _⟩ | ⟨⟨_, _, _, hm⟩, _⟩ |
      ⟨⟨_, _, _, _, _, _, hm⟩, _⟩ <;> exact hm
  obtain ⟨m, hm⟩ := hop
  rw [hm, ha]
  simp [pyOrQ, h0]

/-- Witness for C9: with explicit opacity 1 every emitted trace carries
opacity 1. -/
theorem claimC9_witness :
    ({ defaultArgs with view := "vgs", alpha := some 1 } : Args).alpha =
      some 1 ∧ (1 : ℚ) ≠ 0 ∧
    ((ivplot [⟨[⟨1, 2, 1⟩], some "g"⟩] (some (freshFig "vgs"))
      { defaultArgs with view := "vgs", alpha := some 1 }).1.traces.drop
      (ensureFig (some (freshFig "vgs"))
        ({ defaultArgs with view := "vgs", alpha := some 1 } :
          Args).view).traces.length).all
      (fun t => t.opacity == (1 : ℚ)) = true :=
  ⟨rfl, by norm_num,
   claimC9_amended [⟨[⟨1, 2, 1⟩], some "g"⟩] _ _ 1 rfl (by norm_num)⟩

/-! ## Claim C5: per-label colouring of the 3D traces -/

lemma colorForLabel_binds (tbl : List (String × String))
    (label color : Option String) (hl : pyTruthyS label = true) :
    (colorForLabel tbl label color).1.lookup (label.getD "") =
      some (colorForLabel tbl label color).2 := by
  unfold colorForLabel
  rw [if_pos hl]
  cases hcl : tbl.lookup (label.getD "") with
  | some c => simp [hcl]
  | none =>
    simp only [hcl]
    rw [lookup_append_right_of_none hcl]
    simp [List.lookup]

/-- **C5 counterexample.** A labelled call with surface mode and three
samples emits its two 3D traces as triangulated meshes whose colour is the
explicit override `color or None` — here `None`, the renderer default —
although the state's table assigns the label "A" the per-label colour
"crimson"; the meshes are not coloured with the per-label colour. -/
theorem claimC5_counterexample :
    (ivplot [⟨[⟨0, 0, 1⟩, ⟨1, 0, 2⟩, ⟨0, 1, 3⟩], none⟩]
      (some (freshFig "all"))
      { defaultArgs with surf := true, label := some "A" }).2 = none ∧
    (ivplot [⟨[⟨0, 0, 1⟩, ⟨1, 0, 2⟩, ⟨0, 1, 3⟩], none⟩]
      (some (freshFig "all"))
      { defaultArgs with surf := true, label := some "A" }).1.labelColors =
      [("A", "crimson")] ∧
    ((ivplot [⟨[⟨0, 0, 1⟩, ⟨1, 0, 2⟩, ⟨0, 1, 3⟩], none⟩]
      (some (freshFig "all"))
      { defaultArgs with surf := true, label := some "A" }).1.traces.filter
      (fun t => t.kind == TraceKind.mesh3d ||
        t.kind == TraceKind.scatter3d)).map (fun t => t.color) =
      [TraceColor.meshC none, TraceColor.meshC none] ∧
    TraceColor.meshC none ≠ TraceColor.direct "crimson" := by decide

/-- **C5 (amended).** For a successful call contributing to the 3D pool
with a truthy label, the label is bound in the state's table to the
deterministic per-label colour, every 3D point-cloud trace the call emits —
in the log scene and in the linear scene alike — carries exactly that
colour, while every triangulated surface trace instead carries the explicit
colour override (renderer default when absent), not the per-label
colour. -/
theorem claimC5_amended (sweeps : List SweepRec) (args : Args)
    (fig : Option FigState) (hl : pyTruthyS args.label = true)
    (hv : (args.view == "3d" || args.view == "all") = true)
    (he : (ivplot sweeps fig args).2 = none) :
    (ivplot sweeps fig args).1.labelColors.lookup (args.label.getD "") =
      some (colorForLabel (ensureFig fig args.view).labelColors args.label
        args.color).2 ∧
    ((ivplot sweeps fig args).1.traces.drop
      (ensureFig fig args.view).traces.length).all
      (fun t =>
        match t.kind with
        | TraceKind.scatter3d =>
            t.color == TraceColor.direct (colorForLabel
              (ensureFig fig args.view).labelColors args.label args.color).2
        | TraceKind.mesh3d =>
            t.color == TraceColor.meshC (pyOrOpt args.color)
        | TraceKind.scatter2d => true) = true := by
  obtain ⟨new, htr, _, _, hecl, hp⟩ := ivplot_spec sweeps args fig
  constructor
  · rw [hecl he hv]
    exact colorForLabel_binds _ _ _ hl
  · rw [htr, List.drop_left, List.all_eq_true]
    intro t ht
    rcases hp t ht with ⟨⟨hk, _⟩, _⟩ | ⟨⟨hk, _⟩, _⟩ | ⟨h3, _⟩
    · simp [hk]
    · simp [hk]
    · obtain ⟨hkd, _, _, _, hsc, hmc, _⟩ := h3
      rcases hkd with hk | hk
      · simp [hk, hsc hk]
      · simp [hk, hmc hk]

/-- Witness for C5: a labelled point-cloud call on view `all` binds "A" to
the first palette colour. -/
theorem claimC5_witness :
    pyTruthyS (some "A") = true ∧
    (ivplot [⟨[⟨0, 0, 1⟩], none⟩] (some (freshFig "all"))
      { defaultArgs with label := some "A" }).2 = none ∧
    (ivplot [⟨[⟨0, 0, 1⟩], none⟩] (some (freshFig "all"))
      { defaultArgs with label := some "A" }).1.labelColors.lookup
        ((some "A").getD "") =
      some (colorForLabel
        (ensureFig (some (freshFig "all"))
          ({ defaultArgs with label := some "A" } : Args).view).labelColors
        (some "A") none).2 :=
  ⟨by decide, by decide,
   (claimC5_amended [⟨[⟨0, 0, 1⟩], none⟩]
     { defaultArgs with label := some "A" } (some (freshFig "all"))
     (by decide) (by decide) (by decide)).1⟩

/-! ## Claim C3: atomicity of a failing call -/

/-- **C3 counterexample.** A call over a healthy gate-sweep record and an
empty drain-sweep record fails in the drain-panel phase (empty colour-range
reduction), yet the shared state is not left unchanged: the gate-panel
phase's trace additions and range widening are already committed when the
exception propagates. -/
theorem claimC3_counterexample :
    (ivplot [⟨[⟨1, 2, 3⟩], some "g"⟩, ⟨[], some "d"⟩]
      (some (freshFig "all")) defaultArgs).2 = some Err.emptyReduce ∧
    (ivplot [⟨[⟨1, 2, 3⟩], some "g"⟩, ⟨[], some "d"⟩]
      (some (freshFig "all")) defaultArgs).1 ≠ freshFig "all" := by decide

/-- **C3 (amended).** A failing call surfaces the error to the caller but
keeps every mutation performed before the failure point: with view `all`,
if the gate-panel phase succeeds and the drain-panel phase raises, the call
returns exactly the state produced up to the drain-phase failure — the
completed gate-panel traces and range widenings stay committed, with no
rollback to the pre-call state. -/
theorem claimC3_amended (sweeps : List SweepRec) (args : Args)
    (st0 st1 st2 : FigState) (e : Err) (hv : args.view = "all")
    (h1 : phaseVgs sweeps args st0 = (st1, none))
    (h2 : phaseVds sweeps args st1 = (st2, some e)) :
    ivplot sweeps (some st0) args = (st2, some e) := by
  simp [ivplot, ensureFig, hv, h1, h2]

/-- Witness for C3: the counterexample input, run through the amended
theorem — the returned state is the one mutated by the completed gate
phase. -/
theorem claimC3_witness :
    ivplot [⟨[⟨1, 2, 3⟩], some "g"⟩, ⟨[], some "d"⟩]
        (some (freshFig "all")) defaultArgs =
      ((phaseVds [⟨[⟨1, 2, 3⟩], some "g"⟩, ⟨[], some "d"⟩] defaultArgs
          (phaseVgs [⟨[⟨1, 2, 3⟩], some "g"⟩, ⟨[], some "d"⟩] defaultArgs
            (freshFig "all")).1).1,
        some Err.emptyReduce) := by
  refine claimC3_amended _ defaultArgs (freshFig "all")
    (phaseVgs [⟨[⟨1, 2, 3⟩], some "g"⟩, ⟨[], some "d"⟩] defaultArgs
      (freshFig "all")).1
    (phaseVds [⟨[⟨1, 2, 3⟩], some "g"⟩, ⟨[], some "d"⟩] defaultArgs
      (phaseVgs [⟨[⟨1, 2, 3⟩], some "g"⟩, ⟨[], some "d"⟩] defaultArgs
        (freshFig "all")).1).1
    Err.emptyReduce rfl ?_ ?_
  · exact Prod.ext rfl (by decide)
  · exact Prod.ext rfl (by decide)

/-! ## Claim C4: empty-pool policy -/

/-- **C4 counterexample.** (a) A gate-sweep record with zero samples makes
the gate pool's contributing sample set empty, yet the gate-view call is
not skipped without error — it raises on the empty colour-range reduction.
(b) One record with zero samples leaves the 3D pool's combined sample set
empty while view `all` requests the 3D pool, yet the call completes without
a hard error. -/
theorem claimC4_counterexample :
    (ivplot [⟨[], some "g"⟩] (some (freshFig "vgs"))
      { defaultArgs with view := "vgs" }).2 = some Err.emptyReduce ∧
    (ivplot [⟨[], some "x"⟩] (some (freshFig "all")) defaultArgs).2 =
      none := by decide

/-- **C4 (amended).** A 2D pool is skipped without error exactly when no
record contributes to it — in particular drain-sweep-only records with the
gate view selector produce zero gate-panel traces and do not raise,
returning the state unchanged; a contributing record with zero samples
makes the call fail on the empty reduction instead.  Requesting the 3D pool
(view `3d` or `all`) with an empty record list is a hard error from the
concatenation; with at least one (even empty) record the concatenation
succeeds, and under the six-panel layout such a call completes without
error, emitting one empty linear-scene point cloud. -/
theorem claimC4_amended :
    (∀ (sweeps : List SweepRec) (args : Args) (st : FigState),
      args.view = "vgs" →
      (∀ s ∈ sweeps, typeGet s ≠ "g" ∧ typeGet s ≠ "both") →
      ivplot sweeps (some st) args = (st, none)) ∧
    (∀ (args : Args) (fig : Option FigState),
      args.view = "3d" ∨ args.view = "all" →
      ivplot [] fig args =
        (ensureFig fig args.view, some Err.emptyConcat)) ∧
    (ivplot [⟨[], some "g"⟩] (some (freshFig "vgs"))
      { defaultArgs with view := "vgs" }).2 = some Err.emptyReduce ∧
    (ivplot [⟨[], some "x"⟩] (some (freshFig "all")) defaultArgs).2 =
      none ∧
    (ivplot [⟨[], some "x"⟩] (some (freshFig "all"))
      defaultArgs).1.traces.length = 1 := by
  refine ⟨?_, ?_, by decide, by decide, by decide⟩
  · intro sweeps args st hv hnone
    have hfil : sweeps.filter
        (fun s => typeGet s == "g" || typeGet s == "both") = [] := by
      rw [List.filter_eq_nil_iff]
      intro s hs
      obtain ⟨h1, h2⟩ := hnone s hs
      simp [h1, h2]
    simp [ivplot, ensureFig, hv, phaseVgs, hfil]
  · intro args fig hv
    rcases hv with hv | hv <;>
      simp [ivplot, ensureFig, hv, phaseVgs, phaseVds, phase3d]

/-- Witness for C4: a single drain-sweep record with the gate view selector
leaves the state untouched and raises nothing. -/
theorem claimC4_witness :
    typeGet ⟨[⟨1, 1, 1⟩], some "d"⟩ = "d" ∧
    ivplot [⟨[⟨1, 1, 1⟩], some "d"⟩] (some (freshFig "vgs"))
      { defaultArgs with view := "vgs" } = (freshFig "vgs", none) :=
  ⟨rfl, claimC4_amended.1 [⟨[⟨1, 1, 1⟩], some "d"⟩] _ _ rfl (by decide)⟩

end IVPlot
